import Mathlib

/-!
Verification of the beads issue-tracker HTTP layer and duplicate-detection
algorithms, shallowly embedded from the Go sources
(`internal/http/server.go`, `internal/http/handlers.go`, `cmd/bd/serve.go`).
-/

namespace Beads

/-- Issue status, from `internal/types` as used throughout the sources
(spec §3: Status ∈ \x7bopen, in_progress, blocked, closed\x7d). -/
inductive Status where
  | open_
  | in_progress
  | blocked
  | closed
  deriving DecidableEq, Repr

/-- The fields of `types.Issue` relevant to the claims under study
(identifier, free-text fields, status, and the scalar fields the HTTP
create handler copies). -/
structure Issue where
  id : String
  title : String
  description : String
  design : String
  acceptanceCriteria : String
  notes : String
  status : Status
  issueType : String
  priority : Int
  assignee : String
  deriving DecidableEq, Repr

/-- A JSON scalar value, enough to model the error bodies the server writes. -/
inductive JVal where
  | str (s : String)
  | bool (b : Bool)
  deriving DecidableEq, Repr

/- ------------------------------------------------------------------
   C7: actor resolution, from `Server.getActor` (server.go lines 141-152).
   Go's `Header.Get` and `Query().Get` return "" when the key is absent,
   so both inputs are plain strings with "" meaning "not supplied".
   ------------------------------------------------------------------ -/

/-- Embeds `Server.getActor`: X-Actor header first, then the `actor` query
parameter, else the fixed default. -/
def getActor (xActorHeader actorQuery : String) : String :=
  if xActorHeader ≠ "" then xActorHeader
  else if actorQuery ≠ "" then actorQuery
  else "http-user"

/- ------------------------------------------------------------------
   C9: create handler forces Status = open,
   from `handleCreateIssue` (handlers.go lines 142-175).
   ------------------------------------------------------------------ -/

/-- The fields of `rpc.CreateArgs` that `handleCreateIssue` reads
(ID, Title, Description, Design, AcceptanceCriteria, IssueType,
Priority, Assignee). -/
structure CreateArgs where
  id : String
  title : String
  description : String
  design : String
  acceptanceCriteria : String
  issueType : String
  priority : Int
  assignee : String
  deriving DecidableEq, Repr

/-- A create request body: the `CreateArgs` fields plus a `status` value the
client may also send. JSON unmarshalling into `rpc.CreateArgs` drops keys the
struct does not bind, which `parseCreateBody` reflects. -/
structure CreateRequestBody where
  args : CreateArgs
  status : String
  deriving DecidableEq, Repr

/-- JSON decoding of the create body into `rpc.CreateArgs`: every key outside
the struct's fields (in particular `status`) is discarded. -/
def parseCreateBody (b : CreateRequestBody) : CreateArgs := b.args

/-- Embeds the issue literal built by `handleCreateIssue` (handlers.go
lines 153-166): copies the args fields and hard-codes `Status: StatusOpen`;
the assignee is copied only when non-empty (the zero value is "" anyway). -/
def buildCreateIssue (args : CreateArgs) : Issue :=
  let issue : Issue :=
    { id := args.id
      title := args.title
      description := args.description
      design := args.design
      acceptanceCriteria := args.acceptanceCriteria
      notes := ""
      status := Status.open_
      issueType := args.issueType
      priority := args.priority
      assignee := "" }
  if args.assignee ≠ "" then { issue with assignee := args.assignee } else issue

/- ------------------------------------------------------------------
   C1: RPC dispatch, from `setupRoutes` (server.go lines 56-108) and the
   handler bodies in handlers.go.
   ------------------------------------------------------------------ -/

/-- The fixed RPC operation vocabulary (spec §4.6), each of which
`setupRoutes` binds to exactly one handler function. -/
inductive Op where
  | create | list | show | update | close | ready | stats
  | epicStatus | depTree | commentAdd | commentList
  | labelAdd | labelRemove | depAdd | depRemove
  | compact | compactStats | health | status | metrics
  deriving DecidableEq, Repr

/-- The Issue Store / Dependency Graph / Compaction calls available on the
`storage.Storage` interface, as invoked from handlers.go. -/
inductive CoreCall where
  | createIssue | searchIssues | getIssue | updateIssue | closeIssue
  | getReadyWork | getStatistics | getEpicsEligibleForClosure
  | getDependencyTree | addComment | getEvents
  | addLabel | removeLabel | addDependency | removeDependency
  deriving DecidableEq, Repr

/-- The sequence of storage calls each operation's handler makes on its
success path, read off the handler bodies in handlers.go:
`handleUpdateIssue` calls `UpdateIssue` then re-reads with `GetIssue`;
`handleListComments` serves comment-list from `GetEvents`;
`handleHealth` probes the store with `GetStatistics`;
`handleCompact`, `handleCompactStats` are 501 stubs making no call;
`handleStatus` and `handleMetrics` return static maps with no call. -/
def opCoreCalls : Op → List CoreCall
  | .create => [.createIssue]
  | .list => [.searchIssues]
  | .show => [.getIssue]
  | .update => [.updateIssue, .getIssue]
  | .close => [.closeIssue]
  | .ready => [.getReadyWork]
  | .stats => [.getStatistics]
  | .epicStatus => [.getEpicsEligibleForClosure]
  | .depTree => [.getDependencyTree]
  | .commentAdd => [.addComment]
  | .commentList => [.getEvents]
  | .labelAdd => [.addLabel]
  | .labelRemove => [.removeLabel]
  | .depAdd => [.addDependency]
  | .depRemove => [.removeDependency]
  | .compact => []
  | .compactStats => []
  | .health => [.getStatistics]
  | .status => []
  | .metrics => []

/- ------------------------------------------------------------------
   C5: error responses, from `Server.writeError` (server.go lines 155-168)
   and the error paths of `handleUpdateIssue` (handlers.go lines 235-261).
   ------------------------------------------------------------------ -/

/-- The JSON body `Server.writeError` writes: exactly the error's
`Error()` string under key "error" and `false` under key "success". -/
def writeErrorBody (errString : String) : List (String × JVal) :=
  [("error", JVal.str errString), ("success", JVal.bool false)]

/-- The error kinds named by spec §7. -/
inductive ErrKind where
  | validation | notFound | conflict | lockTimeout | storage
  deriving DecidableEq, Repr

/-- A structured error as spec §7 describes one: a kind plus a message. -/
structure StructuredError where
  kind : ErrKind
  msg : String
  deriving DecidableEq, Repr

/-- What a Go handler can observe of an error value through the `error`
interface: the `Error()` string, i.e. the message. -/
def goErrorString (e : StructuredError) : String := e.msg

/-- The response `handleUpdateIssue` produces when the store's
`UpdateIssue` fails: it passes `http.StatusInternalServerError` and the
error to `writeError` for every failure, whatever its kind
(handlers.go lines 248-251). -/
def updateIssueFailureResponse (e : StructuredError) : Nat × List (String × JVal) :=
  (500, writeErrorBody (goErrorString e))

/- ------------------------------------------------------------------
   C6: compaction endpoints, from `handleCompact` / `handleCompactStats`
   (handlers.go lines 449-455).
   ------------------------------------------------------------------ -/

/-- Outcome of an HTTP handler: a success body or an error status+message. -/
inductive HandlerResult where
  | ok (body : List (String × JVal))
  | err (status : Nat) (msg : String)
  deriving DecidableEq, Repr

/-- Embeds `handleCompact`: unconditionally
`writeError(w, r, http.StatusNotImplemented, errors "not implemented")`. -/
def handleCompact : HandlerResult := HandlerResult.err 501 "not implemented"

/-- Embeds `handleCompactStats`: unconditionally the same 501 error. -/
def handleCompactStats : HandlerResult := HandlerResult.err 501 "not implemented"

/- ------------------------------------------------------------------
   C8: dependency-tree max depth, from `handleDependencyTree`
   (handlers.go lines 417-434): `maxDepth := 10`, then
   `maxDepth, _ = strconv.Atoi(d)` when the query parameter is non-empty.
   ------------------------------------------------------------------ -/

/-- ASCII decimal digit test, as in Go's digit check `'0' <= c <= '9'`. -/
def isDigit (c : Char) : Bool := 48 ≤ c.toNat && c.toNat ≤ 57

/-- Numeric value of a digit character. -/
def digitVal (c : Char) : Nat := c.toNat - 48

/-- The accumulator loop of Go's ParseUint for base 10: fails on the first
non-digit, else folds `n = n*10 + digit`. -/
def goDigits (acc : Nat) : List Char → Option Nat
  | [] => some acc
  | c :: rest => if isDigit c then goDigits (acc * 10 + digitVal c) rest else none

/-- Digit-string parsing: at least one character, all digits. -/
def parseAllDigits (l : List Char) : Option Nat :=
  if l = [] then none else goDigits 0 l

/-- Optional leading sign, as in Go's ParseInt: returns (negative, rest). -/
def stripSign (l : List Char) : Bool × List Char :=
  match l with
  | c :: t => if c = '-' then (true, t) else if c = '+' then (false, t) else (false, l)
  | [] => (false, l)

/-- Embeds `strconv.Atoi` on a 64-bit platform: (value, ok). Syntax errors
yield value 0; out-of-range values are clamped to the int64 bounds — in both
cases ok is false (Go returns a non-nil error alongside). -/
def goAtoi (s : String) : Int × Bool :=
  match parseAllDigits (stripSign s.data).2 with
  | none => (0, false)
  | some v =>
    if (stripSign s.data).1 then
      if v ≤ 2 ^ 63 then (-(v : Int), true) else (-(2 ^ 63), false)
    else
      if v ≤ 2 ^ 63 - 1 then ((v : Int), true) else (2 ^ 63 - 1, false)

/-- Embeds the max-depth resolution of `handleDependencyTree`: the query
value (Go's `Query().Get` gives "" when absent); non-empty values go through
Atoi with the error discarded, otherwise the default 10 stands. -/
def effectiveMaxDepth (maxDepthParam : String) : Int :=
  if maxDepthParam ≠ "" then (goAtoi maxDepthParam).1 else 10

/-- Claim-side predicate: the string is an ordinary signed decimal integer
numeral (optional sign, at least one digit, nothing else). -/
def isDecimalIntString (s : String) : Bool :=
  let sd := stripSign s.data
  !sd.2.isEmpty && sd.2.all isDigit

/-- The character for a decimal digit. -/
def digitChar : Nat → Char
  | 0 => '0' | 1 => '1' | 2 => '2' | 3 => '3' | 4 => '4'
  | 5 => '5' | 6 => '6' | 7 => '7' | 8 => '8' | _ => '9'

/-- Fuel-driven most-significant-first decimal digits of a natural number. -/
def natDecCharsAux : Nat → Nat → List Char
  | 0, _ => []
  | fuel + 1, n =>
    if n < 10 then [digitChar n]
    else natDecCharsAux fuel (n / 10) ++ [digitChar (n % 10)]

/-- Decimal digit string of a natural number (n+1 fuel always suffices). -/
def natDecChars (n : Nat) : List Char := natDecCharsAux (n + 1) n

/-- Canonical decimal numeral of an integer. -/
def intDecString (n : Int) : String :=
  if n < 0 then String.mk ('-' :: natDecChars n.natAbs)
  else String.mk (natDecChars n.toNat)

/- ------------------------------------------------------------------
   C10: bearer-token authentication, from `Server.authMiddleware`
   (the auth middleware file, lines 381-420).
   ------------------------------------------------------------------ -/

/-- Splitting at the first space, the n=2 case of Go's
`strings.SplitN(s, " ", 2)`: `none` when the string has no space
(SplitN then returns the one-element slice), else the parts before and
after the first space. -/
def splitFirstSpace : List Char → Option (List Char × List Char)
  | [] => none
  | c :: rest =>
    if c = ' ' then some ([], rest)
    else
      match splitFirstSpace rest with
      | none => none
      | some (a, b) => some (c :: a, b)

/-- What the middleware does with a request: pass it to the wrapped handler
or reject it with a status and message before the handler runs. -/
inductive AuthOutcome where
  | forward
  | reject (status : Nat) (msg : String)
  deriving DecidableEq, Repr

/-- Embeds `authMiddleware`: GET / is always forwarded; an empty
BEADS_API_SECRET disables all checks; otherwise the Authorization header
must split as "Bearer" + space + the exact configured token, else the
request is rejected with 401 and the handler never runs. -/
def authMiddleware (path method secret authHeader : String) : AuthOutcome :=
  if path = "/" ∧ method = "GET" then AuthOutcome.forward
  else if secret = "" then AuthOutcome.forward
  else if authHeader = "" then
    AuthOutcome.reject 401 "Missing Authorization header"
  else
    match splitFirstSpace authHeader.data with
    | none =>
      AuthOutcome.reject 401
        "Invalid Authorization header format. Expected: Authorization: Bearer <token>"
    | some (p0, p1) =>
      if String.mk p0 ≠ "Bearer" then
        AuthOutcome.reject 401
          "Invalid Authorization header format. Expected: Authorization: Bearer <token>"
      else if String.mk p1 ≠ secret then
        AuthOutcome.reject 401 "Invalid token"
      else AuthOutcome.forward

/- ------------------------------------------------------------------
   C2, C3, C4: the Duplicate Detector. The implementations of
   `findDuplicateGroups`, `countReferences` and `chooseMergeTarget` are not
   under src/ — only their tests in cmd/bd are — so they are modelled from
   spec §4.3 and checked against those tests' expectations.
   ------------------------------------------------------------------ -/

/-- Modelled from the spec: the Duplicate Detector's grouping key (§4.3) —
(Title, Description, Design, AcceptanceCriteria, Status), compared
field-for-field. -/
def dupKey (i : Issue) : String × String × String × String × Status :=
  (i.title, i.description, i.design, i.acceptanceCriteria, i.status)

/-- The distinct elements of a list in first-occurrence order (fuel-driven;
the list's length is always enough fuel). -/
def stableKeysAux {α : Type} [DecidableEq α] : Nat → List α → List α
  | 0, _ => []
  | _ + 1, [] => []
  | fuel + 1, k :: rest => k :: stableKeysAux fuel (rest.filter (fun x => x ≠ k))

/-- The distinct elements of a list in first-occurrence order. -/
def stableKeys {α : Type} [DecidableEq α] (l : List α) : List α :=
  stableKeysAux l.length l

/-- Modelled from the spec: `findDuplicateGroups` (cmd/bd, implementation
missing from src/) — group the snapshot by exact key equality, stably in
input order, and report only groups of size at least 2. -/
def findDuplicateGroups (issues : List Issue) : List (List Issue) :=
  (stableKeys (issues.map dupKey)).filterMap fun k =>
    if 2 ≤ (issues.filter fun i => dupKey i = k).length
    then some (issues.filter fun i => dupKey i = k) else none

/-- Non-overlapping occurrences of the pattern `nc :: nrest` in a text,
Go `strings.Count` style: skip past each match (fuel-driven; the text's
length is always enough fuel since every step drops at least one char). -/
def countOccurAux (nc : Char) (nrest : List Char) : Nat → List Char → Nat
  | 0, _ => 0
  | _ + 1, [] => 0
  | fuel + 1, c :: rest =>
    if List.isPrefixOf (nc :: nrest) (c :: rest)
    then 1 + countOccurAux nc nrest fuel (rest.drop nrest.length)
    else countOccurAux nc nrest fuel rest

/-- Substring occurrence count of `needle` in `hay` (for the empty needle,
Go's `strings.Count` convention of length+1). -/
def countOccur (needle hay : String) : Nat :=
  match needle.data with
  | [] => hay.data.length + 1
  | nc :: nrest => countOccurAux nc nrest hay.data.length hay.data

/-- Modelled from the spec: `countReferences` (cmd/bd, implementation
missing from src/) — for a target issue ID, the total number of times it
appears as a substring in the Description or Notes of every other issue
(issues with that very ID excluded). -/
def countReferences (issues : List Issue) (targetId : String) : Nat :=
  (issues.filter fun a => a.id ≠ targetId).foldl
    (fun acc a =>
      acc + countOccur targetId a.description + countOccur targetId a.notes) 0

/-- Executable lexicographic strictly-less test on character lists,
mirroring ordinary string ordering. -/
def lexLt : List Char → List Char → Bool
  | [], [] => false
  | [], _ :: _ => true
  | _ :: _, [] => false
  | a :: as, b :: bs =>
    if a < b then true else if b < a then false else lexLt as bs

/-- One comparison step of merge-target selection: the candidate replaces
the best-so-far when it has strictly more references, or equally many and a
lexicographically smaller ID. -/
def pickBetter (refCounts : String → Nat) (best cand : Issue) : Issue :=
  if refCounts best.id < refCounts cand.id ∨
      (refCounts cand.id = refCounts best.id ∧
        lexLt cand.id.data best.id.data = true)
  then cand else best

/-- The merge-target preference order used by the claims: `t` is at least
as good a target as `i` — more references, or equally many and an ID no
larger in ordinary string order. -/
def beats (refCounts : String → Nat) (t i : Issue) : Prop :=
  refCounts i.id ≤ refCounts t.id ∧
    (refCounts i.id = refCounts t.id → t.id ≤ i.id)

/-- Modelled from the spec: `chooseMergeTarget` (cmd/bd, implementation
missing from src/) — the group member with the highest reference count,
ties broken by the lexicographically smallest ID; none on an empty group. -/
def chooseMergeTarget (group : List Issue) (refCounts : String → Nat) :
    Option Issue :=
  match group with
  | [] => none
  | x :: rest => some (rest.foldl (pickBetter refCounts) x)

/-- A sample issue for the duplicate-grouping scenarios of spec §8. -/
def sampleIssue (id desc : String) : Issue :=
  { id := id, title := "Fix auth bug", description := desc, design := "",
    acceptanceCriteria := "", notes := "", status := Status.open_,
    issueType := "bug", priority := 1, assignee := "" }

/-- A sample issue for the merge-target scenarios of spec §8. -/
def taskIssue (id : String) : Issue :=
  { id := id, title := "Task", description := "", design := "",
    acceptanceCriteria := "", notes := "", status := Status.open_,
    issueType := "task", priority := 0, assignee := "" }

/-- A sample issue for the reference-counting corpus of spec §8. -/
def corpusIssue (id desc noteText : String) : Issue :=
  { id := id, title := "", description := desc, design := "",
    acceptanceCriteria := "", notes := noteText, status := Status.open_,
    issueType := "", priority := 0, assignee := "" }

/-- The reference-counting corpus of spec §8. -/
def refCorpus : List Issue :=
  [corpusIssue "bd-1" "See bd-2 for details" "Related to bd-3",
   corpusIssue "bd-2" "Mentioned bd-1 twice: bd-1" "",
   corpusIssue "bd-3" "" "Nothing to see here"]

/-- The all-zero reference-count map of the first merge-target scenario. -/
def refZero : String → Nat := fun _ => 0

/-- The reference-count map of the second merge-target scenario:
bd-1 has 1 reference, bd-100 has 10. -/
def refMap2 : String → Nat :=
  fun id => if id = "bd-1" then 1 else if id = "bd-100" then 10 else 0

end Beads

/-- C7: the actor attributed to an operation is the X-Actor header when
non-empty, else the `actor` query parameter when non-empty, else the fixed
default "http-user"; in particular the header takes precedence over the
query parameter. -/
theorem actor_resolution (h q : String) :
    (h ≠ "" → Beads.getActor h q = h) ∧
    (h = "" → q ≠ "" → Beads.getActor h q = q) ∧
    (h = "" → q = "" → Beads.getActor h q = "http-user") := by
  refine ⟨fun hh => ?_, fun hh hq => ?_, fun hh hq => ?_⟩ <;>
    simp [Beads.getActor, hh]
  · simp [hq]
  · simp [hq]

/-- Witness for `actor_resolution` at concrete header/query values. -/
theorem actor_resolution_witness :
    Beads.getActor "alice" "bob" = "alice" ∧
    Beads.getActor "" "bob" = "bob" ∧
    Beads.getActor "" "" = "http-user" := by
  refine ⟨(actor_resolution "alice" "bob").1 (by decide),
          (actor_resolution "" "bob").2.1 rfl (by decide),
          (actor_resolution "" "").2.2 rfl rfl⟩

/-- C1 (counterexample): the claim that every operation dispatches to
exactly one core call fails at the update operation, whose handler invokes
two storage calls: `UpdateIssue` followed by a `GetIssue` re-read. -/
theorem dispatch_exactly_one_fails_at_update :
    Beads.opCoreCalls Beads.Op.update =
      [Beads.CoreCall.updateIssue, Beads.CoreCall.getIssue] ∧
    (Beads.opCoreCalls Beads.Op.update).length ≠ 1 := by decide

/-- C1 (amended): ready dispatches to GetReadyWork and stats to
GetStatistics; create, list, show, close, epic-status, dependency-tree,
comment-add, label-add/remove, dependency-add/remove and health each
dispatch to exactly one core call (comment-list serves from GetEvents),
while update dispatches to UpdateIssue followed by GetIssue, and compact,
compact-stats, status and metrics dispatch to none (stub or static
responses). -/
theorem dispatch_core_calls :
    Beads.opCoreCalls Beads.Op.ready = [Beads.CoreCall.getReadyWork] ∧
    Beads.opCoreCalls Beads.Op.stats = [Beads.CoreCall.getStatistics] ∧
    Beads.opCoreCalls Beads.Op.create = [Beads.CoreCall.createIssue] ∧
    Beads.opCoreCalls Beads.Op.list = [Beads.CoreCall.searchIssues] ∧
    Beads.opCoreCalls Beads.Op.show = [Beads.CoreCall.getIssue] ∧
    Beads.opCoreCalls Beads.Op.close = [Beads.CoreCall.closeIssue] ∧
    Beads.opCoreCalls Beads.Op.epicStatus =
      [Beads.CoreCall.getEpicsEligibleForClosure] ∧
    Beads.opCoreCalls Beads.Op.depTree = [Beads.CoreCall.getDependencyTree] ∧
    Beads.opCoreCalls Beads.Op.commentAdd = [Beads.CoreCall.addComment] ∧
    Beads.opCoreCalls Beads.Op.commentList = [Beads.CoreCall.getEvents] ∧
    Beads.opCoreCalls Beads.Op.labelAdd = [Beads.CoreCall.addLabel] ∧
    Beads.opCoreCalls Beads.Op.labelRemove = [Beads.CoreCall.removeLabel] ∧
    Beads.opCoreCalls Beads.Op.depAdd = [Beads.CoreCall.addDependency] ∧
    Beads.opCoreCalls Beads.Op.depRemove = [Beads.CoreCall.removeDependency] ∧
    Beads.opCoreCalls Beads.Op.health = [Beads.CoreCall.getStatistics] ∧
    Beads.opCoreCalls Beads.Op.update =
      [Beads.CoreCall.updateIssue, Beads.CoreCall.getIssue] ∧
    Beads.opCoreCalls Beads.Op.compact = [] ∧
    Beads.opCoreCalls Beads.Op.compactStats = [] ∧
    Beads.opCoreCalls Beads.Op.status = [] ∧
    Beads.opCoreCalls Beads.Op.metrics = [] := by decide

/-- C5 (counterexample): two failures of distinct kinds (validation vs
not-found) with the same message produce byte-identical responses from the
update handler, and the error body carries exactly the keys "error" and
"success" — no kind field — so the kind is not surfaced or distinguishable. -/
theorem error_kind_not_surfaced :
    Beads.updateIssueFailureResponse
        ⟨Beads.ErrKind.validation, "bad state"⟩ =
      Beads.updateIssueFailureResponse
        ⟨Beads.ErrKind.notFound, "bad state"⟩ ∧
    Beads.ErrKind.validation ≠ Beads.ErrKind.notFound ∧
    (Beads.writeErrorBody "bad state").map Prod.fst = ["error", "success"] := by
  decide

/-- C5 (amended): every failing update operation yields a structured
response carrying an HTTP status code (fixed at 500 for store failures),
the error message under "error", and success=false; the error kind is not
carried as a separate field, so kinds are distinguishable only through the
message text. -/
theorem error_response_structure (e : Beads.StructuredError) :
    Beads.updateIssueFailureResponse e =
      (500, [("error", Beads.JVal.str e.msg),
             ("success", Beads.JVal.bool false)]) := rfl

/-- C6: evaluating the compaction endpoints shows both respond with a 501
"not implemented" error and never return a success payload — contradicting
the claim that compact-stats returns a CompactStatsData payload and compact
returns applied counts. -/
theorem compact_endpoints_not_implemented :
    Beads.handleCompact = Beads.HandlerResult.err 501 "not implemented" ∧
    Beads.handleCompactStats = Beads.HandlerResult.err 501 "not implemented" ∧
    ∀ body, Beads.handleCompactStats ≠ Beads.HandlerResult.ok body := by
  refine ⟨rfl, rfl, fun body => ?_⟩
  simp [Beads.handleCompactStats]

/-- C9: whatever the create request body contains — including any `status`
value — the issue handed to the store by the create handler has status
`open`. -/
theorem create_forces_status_open (b : Beads.CreateRequestBody) :
    (Beads.buildCreateIssue (Beads.parseCreateBody b)).status =
      Beads.Status.open_ := by
  unfold Beads.buildCreateIssue Beads.parseCreateBody
  by_cases h : b.args.assignee ≠ "" <;> simp [h]

/-- `goDigits` over an appended list runs the left part first and feeds its
accumulator into the right part. -/
theorem goDigits_append (xs ys : List Char) (acc : Nat) :
    Beads.goDigits acc (xs ++ ys) =
      match Beads.goDigits acc xs with
      | some a => Beads.goDigits a ys
      | none => none := by
  induction xs generalizing acc with
  | nil => simp [Beads.goDigits]
  | cons c rest ih =>
    simp only [List.cons_append, Beads.goDigits]
    by_cases h : Beads.isDigit c <;> simp [h, ih]

/-- Each digit character is a digit with the expected value. -/
theorem digitChar_spec : ∀ d : Nat, d < 10 →
    Beads.isDigit (Beads.digitChar d) = true ∧
    Beads.digitVal (Beads.digitChar d) = d := by decide

/-- Any sufficient fuel computes the same decimal digits. -/
theorem natDecCharsAux_irrel : ∀ fuel fuel' n, n < fuel → n < fuel' →
    Beads.natDecCharsAux fuel n = Beads.natDecCharsAux fuel' n := by
  intro fuel
  induction fuel with
  | zero => intro fuel' n h _; omega
  | succ f ih =>
    intro fuel' n h h'
    cases fuel' with
    | zero => omega
    | succ f' =>
      simp only [Beads.natDecCharsAux]
      by_cases h10 : n < 10
      · simp [h10]
      · have hdn : n / 10 < n := Nat.div_lt_self (by omega) (by omega)
        simp only [h10, if_false]
        rw [ih f' (n / 10) (by omega) (by omega)]

/-- Unfolding equation for `natDecChars`. -/
theorem natDecChars_eq (n : Nat) :
    Beads.natDecChars n =
      if n < 10 then [Beads.digitChar n]
      else Beads.natDecChars (n / 10) ++ [Beads.digitChar (n % 10)] := by
  show Beads.natDecCharsAux (n + 1) n = _
  simp only [Beads.natDecCharsAux]
  by_cases h : n < 10
  · simp [h]
  · have hdn : n / 10 < n := Nat.div_lt_self (by omega) (by omega)
    simp only [h, if_false]
    rw [natDecCharsAux_irrel n (n / 10 + 1) (n / 10) (by omega) (by omega)]
    rfl

/-- A decimal digit string is never empty. -/
theorem natDecChars_ne_nil (n : Nat) : Beads.natDecChars n ≠ [] := by
  rw [natDecChars_eq]
  by_cases h : n < 10 <;> simp [h]

/-- Every character of a decimal digit string is a digit. -/
theorem natDecChars_digits (n : Nat) :
    ∀ c ∈ Beads.natDecChars n, Beads.isDigit c = true := by
  induction n using Nat.strong_induction_on with
  | _ n ih =>
    rw [natDecChars_eq]
    by_cases h : n < 10
    · simp only [h, if_true, List.mem_singleton]
      rintro c rfl
      exact (digitChar_spec n h).1
    · have hdn : n / 10 < n := Nat.div_lt_self (by omega) (by omega)
      simp only [h, if_false]
      intro c hc
      rcases List.mem_append.mp hc with h1 | h2
      · exact ih (n / 10) hdn c h1
      · rw [List.mem_singleton.mp h2]
        exact (digitChar_spec (n % 10) (Nat.mod_lt _ (by omega))).1

/-- Running the digit accumulator over the decimal digits of n appends n to
the accumulated value. -/
theorem goDigits_natDecChars (n : Nat) : ∀ acc,
    Beads.goDigits acc (Beads.natDecChars n) =
      some (acc * 10 ^ (Beads.natDecChars n).length + n) := by
  induction n using Nat.strong_induction_on with
  | _ n ih =>
    intro acc
    rw [natDecChars_eq]
    by_cases h : n < 10
    · simp [h, Beads.goDigits, (digitChar_spec n h).1, (digitChar_spec n h).2]
    · have hdn : n / 10 < n := Nat.div_lt_self (by omega) (by omega)
      simp only [h, if_false]
      rw [goDigits_append, ih (n / 10) hdn acc]
      have hm := (digitChar_spec (n % 10) (Nat.mod_lt _ (by omega)))
      simp only [Beads.goDigits, hm.1, hm.2, if_true, List.length_append,
        List.length_singleton, Option.some.injEq]
      rw [pow_succ, ← mul_assoc]
      generalize acc * 10 ^ (Beads.natDecChars (n / 10)).length = A
      omega

/-- Parsing the decimal digit string of n yields n. -/
theorem parseAllDigits_natDecChars (n : Nat) :
    Beads.parseAllDigits (Beads.natDecChars n) = some n := by
  unfold Beads.parseAllDigits
  rw [if_neg (by simpa using natDecChars_ne_nil n), goDigits_natDecChars]
  simp

/-- A non-empty all-digit string carries no sign to strip. -/
theorem stripSign_digits (l : List Char) (hne : l ≠ [])
    (hd : ∀ c ∈ l, Beads.isDigit c = true) :
    Beads.stripSign l = (false, l) := by
  cases l with
  | nil => exact absurd rfl hne
  | cons c t =>
    have hc := hd c (List.mem_cons_self c t)
    have h1 : c ≠ '-' := by rintro rfl; exact absurd hc (by decide)
    have h2 : c ≠ '+' := by rintro rfl; exact absurd hc (by decide)
    simp [Beads.stripSign, h1, h2]

/-- The canonical numeral of an int64-range integer parses back to it. -/
theorem goAtoi_intDecString (n : Int) (h1 : -(2 ^ 63) ≤ n)
    (h2 : n ≤ 2 ^ 63 - 1) :
    Beads.goAtoi (Beads.intDecString n) = (n, true) := by
  have hpow : (2 : Int) ^ 63 = 9223372036854775808 := by norm_num
  have hpowN : (2 : Nat) ^ 63 = 9223372036854775808 := by norm_num
  unfold Beads.goAtoi Beads.intDecString
  by_cases hn : n < 0
  · simp only [hn, if_true]
    have hstrip : Beads.stripSign ('-' :: Beads.natDecChars n.natAbs)
        = (true, Beads.natDecChars n.natAbs) := by simp [Beads.stripSign]
    rw [hstrip]
    simp only [parseAllDigits_natDecChars]
    have habs : n.natAbs ≤ 2 ^ 63 := by rw [hpowN]; omega
    simp only [habs, if_true, Prod.mk.injEq, and_true]
    omega
  · simp only [hn, if_false]
    rw [stripSign_digits _ (natDecChars_ne_nil _) (natDecChars_digits _)]
    simp only [parseAllDigits_natDecChars]
    have htn : n.toNat ≤ 2 ^ 63 - 1 := by rw [hpowN]; omega
    rw [if_neg (by decide)]
    simp only [htn, if_true, Prod.mk.injEq, and_true]
    omega

/-- The canonical numeral of an integer is never the empty string. -/
theorem intDecString_ne_empty (n : Int) : Beads.intDecString n ≠ "" := by
  unfold Beads.intDecString
  by_cases hn : n < 0 <;> simp only [hn, if_true, if_false] <;>
    intro h <;> have hdata := congrArg String.data h
  · simp at hdata
  · exact natDecChars_ne_nil _ (by simpa using hdata)

/-- C8 (counterexample): the request supplying `max_depth=abc` — a value
denoting no integer — invokes the traversal with depth 0, which is neither
"that value" nor the default 10; the claim's universal "when max_depth is
supplied, the traversal is invoked with that value" therefore fails. -/
theorem max_depth_garbage_input :
    Beads.isDecimalIntString "abc" = false ∧
    Beads.effectiveMaxDepth "abc" = 0 ∧
    Beads.effectiveMaxDepth "abc" ≠ 10 := by decide

/-- C8 (amended): dependency-tree requests without a max_depth parameter
(or with an empty value) invoke the traversal with depth 10; when the
supplied max_depth is the decimal numeral of an int64-range integer, the
traversal is invoked with that integer; a supplied but unparseable
max_depth invokes it with 0, Atoi's syntax-error value, because the parse
error is discarded. -/
theorem max_depth_resolution (d : String) (n : Int) :
    (d = "" → Beads.effectiveMaxDepth d = 10) ∧
    (-(2 ^ 63) ≤ n → n ≤ 2 ^ 63 - 1 → d = Beads.intDecString n →
      Beads.effectiveMaxDepth d = n) ∧
    (d ≠ "" → Beads.goAtoi d = (0, false) → Beads.effectiveMaxDepth d = 0) := by
  refine ⟨fun h => by simp [Beads.effectiveMaxDepth, h], fun hl hr hd => ?_,
    fun hne hz => ?_⟩
  · subst hd
    rw [Beads.effectiveMaxDepth, if_pos (intDecString_ne_empty n),
      goAtoi_intDecString n hl hr]
  · rw [Beads.effectiveMaxDepth, if_pos hne, hz]

/-- Witness for `max_depth_resolution`: an absent parameter gives 10, the
numeral "42" gives 42, and the garbage value "abc" gives 0. -/
theorem max_depth_resolution_witness :
    Beads.effectiveMaxDepth "" = 10 ∧
    Beads.effectiveMaxDepth "42" = 42 ∧
    Beads.effectiveMaxDepth "abc" = 0 := by
  refine ⟨(max_depth_resolution "" 0).1 rfl,
    (max_depth_resolution "42" 42).2.1 (by decide) (by decide) (by decide),
    (max_depth_resolution "abc" 0).2.2 (by decide) (by decide)⟩

/-- Two strings with the same character data are equal. -/
theorem string_eq_of_data {a b : String} (h : a.data = b.data) : a = b := by
  cases a; cases b; exact congrArg String.mk h

/-- The data of an appended string is the appended data. -/
theorem string_data_append (a b : String) : (a ++ b).data = a.data ++ b.data := by
  cases a; cases b; rfl

/-- Soundness of the first-space split: a successful split decomposes the
input around a space. -/
theorem splitFirstSpace_sound : ∀ (l a b : List Char),
    Beads.splitFirstSpace l = some (a, b) → l = a ++ ' ' :: b := by
  intro l
  induction l with
  | nil => intro a b h; simp [Beads.splitFirstSpace] at h
  | cons c rest ih =>
    intro a b h
    by_cases hc : c = ' '
    · subst hc
      rw [show Beads.splitFirstSpace (' ' :: rest) = some ([], rest) from by
        simp [Beads.splitFirstSpace]] at h
      obtain ⟨rfl, rfl⟩ := Prod.mk.injEq .. ▸ Option.some.inj h
      rfl
    · rw [show Beads.splitFirstSpace (c :: rest) =
          (match Beads.splitFirstSpace rest with
           | none => none
           | some (a, b) => some (c :: a, b)) from by
        simp [Beads.splitFirstSpace, hc]] at h
      cases hs : Beads.splitFirstSpace rest with
      | none => rw [hs] at h; simp at h
      | some p =>
        obtain ⟨a', b'⟩ := p
        rw [hs] at h
        simp only [Option.some.injEq, Prod.mk.injEq] at h
        obtain ⟨rfl, rfl⟩ := h
        rw [ih a' b' hs]
        rfl

/-- Completeness of the first-space split: the decomposition around the
first space is found. -/
theorem splitFirstSpace_complete : ∀ (a b : List Char), ' ' ∉ a →
    Beads.splitFirstSpace (a ++ ' ' :: b) = some (a, b) := by
  intro a
  induction a with
  | nil => intro b _; simp [Beads.splitFirstSpace]
  | cons c a' ih =>
    intro b hna
    have hc : c ≠ ' ' := fun h => hna (h ▸ List.mem_cons_self c a')
    have hrest : ' ' ∉ a' := fun h => hna (List.mem_cons_of_mem c h)
    simp [Beads.splitFirstSpace, hc, ih b hrest]

/-- The well-formed bearer header for a secret splits as expected. -/
theorem splitFirstSpace_bearer (secret : String) :
    Beads.splitFirstSpace ("Bearer " ++ secret).data =
      some ("Bearer".data, secret.data) := by
  have h1 : ("Bearer " ++ secret).data = "Bearer".data ++ ' ' :: secret.data := by
    rw [string_data_append]
    rfl
  rw [h1]
  exact splitFirstSpace_complete "Bearer".data secret.data (by decide)

/-- C10: authentication is enforced iff the configured secret is non-empty:
with an empty BEADS_API_SECRET every request is forwarded with no check;
with a secret set, a request is forwarded to its handler iff it is GET /
or its Authorization header is exactly "Bearer " followed by the configured
token, and every rejection carries status 401 with the handler never
running. -/
theorem auth_enforcement (path method secret header : String) :
    (secret = "" → Beads.authMiddleware path method secret header =
      Beads.AuthOutcome.forward) ∧
    (secret ≠ "" →
      (Beads.authMiddleware path method secret header =
          Beads.AuthOutcome.forward ↔
        (path = "/" ∧ method = "GET") ∨ header = "Bearer " ++ secret)) ∧
    (∀ st msg, Beads.authMiddleware path method secret header =
        Beads.AuthOutcome.reject st msg → st = 401) := by
  refine ⟨fun hs => ?_, fun hs => ?_, fun st msg h => ?_⟩
  · unfold Beads.authMiddleware
    by_cases hd : path = "/" ∧ method = "GET" <;> simp [hd, hs]
  · unfold Beads.authMiddleware
    by_cases hd : path = "/" ∧ method = "GET"
    · simp [hd]
    · rw [if_neg hd, if_neg hs]
      by_cases hh : header = ""
      · subst hh
        rw [if_pos rfl]
        constructor
        · intro h; exact absurd h (by simp)
        · rintro (h | h)
          · exact absurd h hd
          · exfalso
            have hdat := congrArg String.data h
            rw [string_data_append] at hdat
            simp at hdat
      · rw [if_neg hh]
        rcases hsp : Beads.splitFirstSpace header.data with _ | ⟨p0, p1⟩ <;>
          dsimp only
        · constructor
          · intro h; exact absurd h (by simp)
          · rintro (h | h)
            · exact absurd h hd
            · rw [h, splitFirstSpace_bearer] at hsp
              exact absurd hsp (by simp)
        · by_cases hb : String.mk p0 = "Bearer"
          · rw [if_neg (by simpa using hb)]
            by_cases ht : String.mk p1 = secret
            · rw [if_neg (by simpa using ht)]
              constructor
              · intro _
                right
                have hp0 : p0 = "Bearer".data := by
                  have := congrArg String.data hb; exact this
                have hp1 : p1 = secret.data := by
                  have := congrArg String.data ht; exact this
                apply string_eq_of_data
                rw [splitFirstSpace_sound header.data p0 p1 hsp, hp0, hp1,
                  string_data_append]
                rfl
              · intro _; rfl
            · rw [if_pos (by simpa using ht)]
              constructor
              · intro h; exact absurd h (by simp)
              · rintro (h | h)
                · exact absurd h hd
                · rw [h, splitFirstSpace_bearer] at hsp
                  obtain ⟨rfl, rfl⟩ := Prod.mk.injEq .. ▸ Option.some.inj hsp
                  exact absurd rfl ht
          · rw [if_pos (by simpa using hb)]
            constructor
            · intro h; exact absurd h (by simp)
            · rintro (h | h)
              · exact absurd h hd
              · rw [h, splitFirstSpace_bearer] at hsp
                obtain ⟨rfl, rfl⟩ := Prod.mk.injEq .. ▸ Option.some.inj hsp
                exact absurd rfl hb
  · unfold Beads.authMiddleware at h
    by_cases hd : path = "/" ∧ method = "GET"
    · rw [if_pos hd] at h; exact absurd h (by simp)
    · rw [if_neg hd] at h
      by_cases hsec : secret = ""
      · rw [if_pos hsec] at h; exact absurd h (by simp)
      · rw [if_neg hsec] at h
        by_cases hh : header = ""
        · rw [if_pos hh] at h
          injection h with h1 _
          exact h1.symm
        · rw [if_neg hh] at h
          rcases hq : Beads.splitFirstSpace header.data with _ | ⟨p0, p1⟩ <;>
            rw [hq] at h <;> dsimp only at h
          · injection h with h1 _
            exact h1.symm
          · split_ifs at h <;> (injection h with h1 _; exact h1.symm)

/-- Witness for `auth_enforcement`: with no secret an unauthenticated
request is forwarded; with a secret set, the exact bearer header is
forwarded and a wrong token is not. -/
theorem auth_enforcement_witness :
    Beads.authMiddleware "/issues" "GET" "" "" = Beads.AuthOutcome.forward ∧
    Beads.authMiddleware "/issues" "GET" "s3cret" "Bearer s3cret" =
      Beads.AuthOutcome.forward ∧
    Beads.authMiddleware "/issues" "GET" "s3cret" "Bearer nope" ≠
      Beads.AuthOutcome.forward := by
  refine ⟨(auth_enforcement "/issues" "GET" "" "").1 rfl,
    ((auth_enforcement "/issues" "GET" "s3cret" "Bearer s3cret").2.1
      (by decide)).mpr (Or.inr (by decide)),
    fun h => ?_⟩
  rcases ((auth_enforcement "/issues" "GET" "s3cret" "Bearer nope").2.1
      (by decide)).mp h with ⟨h1, _⟩ | h2
  · exact absurd h1 (by decide)
  · exact absurd h2 (by decide)

/-- `lexLt` decides the ordinary lexicographic strict order on char lists. -/
theorem lexLt_iff_lt : ∀ a b : List Char, Beads.lexLt a b = true ↔ a < b := by
  intro a
  induction a with
  | nil =>
    intro b
    cases b with
    | nil =>
      simp only [Beads.lexLt, Bool.false_eq_true, false_iff]
      intro h
      cases h
    | cons c cs =>
      simp only [Beads.lexLt, true_iff]
      exact List.Lex.nil
  | cons x xs ih =>
    intro b
    cases b with
    | nil =>
      simp only [Beads.lexLt, Bool.false_eq_true, false_iff]
      intro h
      cases h
    | cons y ys =>
      simp only [Beads.lexLt]
      by_cases hxy : x < y
      · simp only [hxy, if_true, true_iff]
        exact List.Lex.rel hxy
      · by_cases hyx : y < x
        · simp only [hxy, hyx, if_false, if_true, Bool.false_eq_true, false_iff]
          intro h
          cases h with
          | rel h => exact hxy h
          | cons h => exact absurd hyx (lt_irrefl x)
        · have hxyeq : x = y := le_antisymm (not_lt.mp hyx) (not_lt.mp hxy)
          subst hxyeq
          rw [if_neg hxy, if_neg hxy, ih ys]
          constructor
          · exact fun h => List.Lex.cons h
          · intro h
            cases h with
            | rel h => exact absurd h hxy
            | cons h => exact h

/-- `lexLt` on string data decides the ordinary string order. -/
theorem lexLt_string_iff (a b : String) :
    Beads.lexLt a.data b.data = true ↔ a < b := by
  rw [String.lt_iff_toList_lt]
  exact lexLt_iff_lt a.data b.data

/-- The merge-target preference is reflexive. -/
theorem beats_refl (rc : String → Nat) (t : Beads.Issue) : Beads.beats rc t t :=
  ⟨le_refl _, fun _ => le_refl _⟩

/-- The merge-target preference is transitive. -/
theorem beats_trans (rc : String → Nat) {a b c : Beads.Issue}
    (h1 : Beads.beats rc a b) (h2 : Beads.beats rc b c) : Beads.beats rc a c := by
  refine ⟨le_trans h2.1 h1.1, fun he => ?_⟩
  have hb : rc b.id = rc a.id := le_antisymm h1.1 (he ▸ h2.1)
  exact le_trans (h1.2 hb) (h2.2 (he.trans hb.symm))

/-- A `pickBetter` step beats both of its inputs and returns one of them. -/
theorem pickBetter_spec (rc : String → Nat) (best cand : Beads.Issue) :
    Beads.beats rc (Beads.pickBetter rc best cand) best ∧
    Beads.beats rc (Beads.pickBetter rc best cand) cand ∧
    (Beads.pickBetter rc best cand = best ∨
      Beads.pickBetter rc best cand = cand) := by
  unfold Beads.pickBetter
  by_cases h : rc best.id < rc cand.id ∨
      (rc cand.id = rc best.id ∧ Beads.lexLt cand.id.data best.id.data = true)
  · rw [if_pos h]
    refine ⟨?_, beats_refl rc cand, Or.inr rfl⟩
    rcases h with h | ⟨heq, hlex⟩
    · exact ⟨Nat.le_of_lt h, fun he => absurd h (by omega)⟩
    · exact ⟨heq.ge, fun _ =>
        le_of_lt ((lexLt_string_iff cand.id best.id).mp hlex)⟩
  · rw [if_neg h]
    obtain ⟨h1, h2⟩ := not_or.mp h
    refine ⟨beats_refl rc best, ⟨Nat.le_of_not_lt h1, fun he => ?_⟩, Or.inl rfl⟩
    have hnl : ¬ (cand.id < best.id) := fun hlt =>
      h2 ⟨he, (lexLt_string_iff cand.id best.id).mpr hlt⟩
    exact le_of_not_lt hnl

/-- The best-so-far fold returns a group member beating every member. -/
theorem foldl_pickBetter (rc : String → Nat) :
    ∀ (rest : List Beads.Issue) (x : Beads.Issue),
      rest.foldl (Beads.pickBetter rc) x ∈ x :: rest ∧
      ∀ i ∈ x :: rest, Beads.beats rc (rest.foldl (Beads.pickBetter rc) x) i := by
  intro rest
  induction rest with
  | nil =>
    intro x
    refine ⟨List.mem_singleton_self x, fun i hi => ?_⟩
    rw [List.mem_singleton.mp hi]
    exact beats_refl rc (List.foldl (Beads.pickBetter rc) x [])
  | cons c rest ih =>
    intro x
    have ihc := ih (Beads.pickBetter rc x c)
    have hpick := pickBetter_spec rc x c
    constructor
    · simp only [List.foldl_cons]
      rcases List.mem_cons.mp ihc.1 with h | h
      · rcases hpick.2.2 with he | he
        · rw [h, he]; exact List.mem_cons_self _ _
        · rw [h, he]; exact List.mem_cons_of_mem _ (List.mem_cons_self _ _)
      · exact List.mem_cons_of_mem _ (List.mem_cons_of_mem _ h)
    · intro i hi
      simp only [List.foldl_cons]
      have hres := ihc.2
      rcases List.mem_cons.mp hi with rfl | hi'
      · exact beats_trans rc
          (hres (Beads.pickBetter rc i c) (List.mem_cons_self _ _)) hpick.1
      · rcases List.mem_cons.mp hi' with rfl | hi''
        · exact beats_trans rc
            (hres (Beads.pickBetter rc x i) (List.mem_cons_self _ _)) hpick.2.1
        · exact hres i (List.mem_cons_of_mem _ hi'')

/-- C4: on every non-empty group, merge-target selection returns a member
with the highest reference count, ties broken by the lexicographically
smallest ID in ordinary string order; in particular the group
\x7bbd-2, bd-1\x7d with all counts 0 selects bd-1, and \x7bbd-1 with 1
reference, bd-100 with 10\x7d selects bd-100. -/
theorem merge_target_selection (group : List Beads.Issue)
    (refCounts : String → Nat) :
    (group ≠ [] → ∃ t, Beads.chooseMergeTarget group refCounts = some t ∧
      t ∈ group ∧ ∀ i ∈ group, refCounts i.id ≤ refCounts t.id ∧
        (refCounts i.id = refCounts t.id → t.id ≤ i.id)) ∧
    Beads.chooseMergeTarget [Beads.taskIssue "bd-2", Beads.taskIssue "bd-1"]
      Beads.refZero = some (Beads.taskIssue "bd-1") ∧
    Beads.chooseMergeTarget [Beads.taskIssue "bd-1", Beads.taskIssue "bd-100"]
      Beads.refMap2 = some (Beads.taskIssue "bd-100") := by
  refine ⟨fun hne => ?_, by decide, by decide⟩
  match group with
  | [] => exact absurd rfl hne
  | x :: rest =>
    obtain ⟨hmem, hbeats⟩ := foldl_pickBetter refCounts rest x
    exact ⟨rest.foldl (Beads.pickBetter refCounts) x, rfl, hmem,
      fun i hi => hbeats i hi⟩

/-- Witness for `merge_target_selection`: the characterization applied to
the group \x7bbd-2, bd-1\x7d with all counts 0 pins the selection to bd-1,
and the second spec scenario selects bd-100. -/
theorem merge_target_selection_witness :
    Beads.chooseMergeTarget [Beads.taskIssue "bd-2", Beads.taskIssue "bd-1"]
      Beads.refZero = some (Beads.taskIssue "bd-1") ∧
    Beads.chooseMergeTarget [Beads.taskIssue "bd-1", Beads.taskIssue "bd-100"]
      Beads.refMap2 = some (Beads.taskIssue "bd-100") := by
  refine ⟨?_, (merge_target_selection [] Beads.refMap2).2.2⟩
  obtain ⟨t, ht, hmem, hbest⟩ := (merge_target_selection
      [Beads.taskIssue "bd-2", Beads.taskIssue "bd-1"] Beads.refZero).1
    (by decide)
  rcases List.mem_cons.mp hmem with rfl | hm
  · have hle := (hbest (Beads.taskIssue "bd-1")
      (List.mem_cons_of_mem _ (List.mem_cons_self _ _))).2 rfl
    have hlt : (Beads.taskIssue "bd-1").id < (Beads.taskIssue "bd-2").id :=
      (lexLt_string_iff _ _).mp (by decide)
    exact absurd hle (not_le.mpr hlt)
  · rcases List.mem_cons.mp hm with rfl | hm2
    · exact ht
    · simp at hm2

/-- Membership in the fuel-driven distinct-keys list equals membership in
the input, given enough fuel. -/
theorem stableKeysAux_mem {α : Type} [DecidableEq α] :
    ∀ (fuel : Nat) (l : List α) (k : α), l.length ≤ fuel →
      (k ∈ Beads.stableKeysAux fuel l ↔ k ∈ l) := by
  intro fuel
  induction fuel with
  | zero =>
    intro l k h
    rw [List.length_eq_zero.mp (Nat.le_zero.mp h)]
    simp [Beads.stableKeysAux]
  | succ f ih =>
    intro l k h
    cases l with
    | nil => simp [Beads.stableKeysAux]
    | cons a rest =>
      simp only [Beads.stableKeysAux, List.mem_cons]
      rw [ih (rest.filter fun x => x ≠ a) k
        (le_trans (List.length_filter_le _ _) (Nat.le_of_succ_le_succ h))]
      constructor
      · rintro (rfl | hk)
        · exact Or.inl rfl
        · exact Or.inr (List.mem_filter.mp hk).1
      · rintro (rfl | hk)
        · exact Or.inl rfl
        · by_cases hak : k = a
          · exact Or.inl hak
          · exact Or.inr (List.mem_filter.mpr ⟨hk, by simpa using hak⟩)

/-- Membership in the distinct-keys list equals membership in the input. -/
theorem stableKeys_mem {α : Type} [DecidableEq α] (l : List α) (k : α) :
    k ∈ Beads.stableKeys l ↔ k ∈ l :=
  stableKeysAux_mem l.length l k (le_refl _)

/-- A list holding two distinct elements has length at least 2. -/
theorem two_le_length_of_two_mem {α : Type} {a b : α} {l : List α}
    (ha : a ∈ l) (hb : b ∈ l) (hne : a ≠ b) : 2 ≤ l.length := by
  match l with
  | [] => exact absurd ha (List.not_mem_nil a)
  | [x] =>
    rw [List.mem_singleton] at ha hb
    exact absurd (ha.trans hb.symm) hne
  | x :: y :: t => simp only [List.length_cons]; omega

/-- C2: a reported duplicate group consists of issues from the snapshot
with pairwise identical (Title, Description, Design, AcceptanceCriteria,
Status) keys and has size at least 2; conversely any two distinct issues
with identical keys land in a common reported group; on the spec §8
scenarios, an identical pair forms one group of size 2, the same pair with
differing Description forms zero groups, and three identical issues form
exactly one group of size 3. -/
theorem duplicate_grouping (issues : List Beads.Issue) :
    (∀ g ∈ Beads.findDuplicateGroups issues, 2 ≤ g.length ∧
      ∀ a ∈ g, ∀ b ∈ g, a ∈ issues ∧ Beads.dupKey a = Beads.dupKey b) ∧
    (∀ a ∈ issues, ∀ b ∈ issues, a ≠ b → Beads.dupKey a = Beads.dupKey b →
      ∃ g, g ∈ Beads.findDuplicateGroups issues ∧ a ∈ g ∧ b ∈ g) ∧
    Beads.findDuplicateGroups [Beads.sampleIssue "bd-1" "Users cannot login",
      Beads.sampleIssue "bd-2" "Users cannot login"] =
      [[Beads.sampleIssue "bd-1" "Users cannot login",
        Beads.sampleIssue "bd-2" "Users cannot login"]] ∧
    Beads.findDuplicateGroups [Beads.sampleIssue "bd-1" "first text",
      Beads.sampleIssue "bd-2" "second text"] = [] ∧
    Beads.findDuplicateGroups [Beads.sampleIssue "bd-1" "same text",
      Beads.sampleIssue "bd-2" "same text",
      Beads.sampleIssue "bd-3" "same text"] =
      [[Beads.sampleIssue "bd-1" "same text",
        Beads.sampleIssue "bd-2" "same text",
        Beads.sampleIssue "bd-3" "same text"]] := by
  refine ⟨fun g hg => ?_, fun a ha b hb hne hkey => ?_, by decide, by decide,
    by decide⟩
  · obtain ⟨k, hk, hfk⟩ := List.mem_filterMap.mp hg
    by_cases hlen : 2 ≤ (issues.filter fun i => Beads.dupKey i = k).length
    · rw [if_pos hlen] at hfk
      obtain rfl := Option.some.inj hfk
      refine ⟨hlen, fun a ha b hb => ?_⟩
      have ha' := List.mem_filter.mp ha
      have hb' := List.mem_filter.mp hb
      refine ⟨ha'.1, ?_⟩
      have hak : Beads.dupKey a = k := by simpa using ha'.2
      have hbk : Beads.dupKey b = k := by simpa using hb'.2
      rw [hak, hbk]
    · rw [if_neg hlen] at hfk
      exact absurd hfk (by simp)
  · have hkst : Beads.dupKey a ∈ Beads.stableKeys (issues.map Beads.dupKey) :=
      (stableKeys_mem _ _).mpr (List.mem_map_of_mem Beads.dupKey ha)
    have haf : a ∈ issues.filter fun i => Beads.dupKey i = Beads.dupKey a :=
      List.mem_filter.mpr ⟨ha, by simp⟩
    have hbf : b ∈ issues.filter fun i => Beads.dupKey i = Beads.dupKey a :=
      List.mem_filter.mpr ⟨hb, by simp [hkey]⟩
    have hlen := two_le_length_of_two_mem haf hbf hne
    refine ⟨issues.filter fun i => Beads.dupKey i = Beads.dupKey a,
      List.mem_filterMap.mpr ⟨Beads.dupKey a, hkst, by rw [if_pos hlen]⟩,
      haf, hbf⟩

/-- Witness for `duplicate_grouping`: applied to the identical pair, the
reported group has size 2 and matching keys. -/
theorem duplicate_grouping_witness :
    2 ≤ [Beads.sampleIssue "bd-1" "Users cannot login",
      Beads.sampleIssue "bd-2" "Users cannot login"].length ∧
    Beads.dupKey (Beads.sampleIssue "bd-1" "Users cannot login") =
      Beads.dupKey (Beads.sampleIssue "bd-2" "Users cannot login") := by
  have h := (duplicate_grouping [Beads.sampleIssue "bd-1" "Users cannot login",
      Beads.sampleIssue "bd-2" "Users cannot login"]).1
    [Beads.sampleIssue "bd-1" "Users cannot login",
      Beads.sampleIssue "bd-2" "Users cannot login"] (by decide)
  exact ⟨h.1, (h.2 _ (by decide) _ (by decide)).2⟩

/-- C3: on the spec §8 corpus, reference counting yields exactly
bd-1 ↦ 2, bd-2 ↦ 1, bd-3 ↦ 1; the per-text substring counts behave as the
claim describes (bd-1 occurs twice in bd-2's description, bd-2 once in
bd-1's description, bd-3 once in bd-1's notes, and never in unrelated
text). -/
theorem reference_counting :
    Beads.countReferences Beads.refCorpus "bd-1" = 2 ∧
    Beads.countReferences Beads.refCorpus "bd-2" = 1 ∧
    Beads.countReferences Beads.refCorpus "bd-3" = 1 ∧
    Beads.countOccur "bd-1" "Mentioned bd-1 twice: bd-1" = 2 ∧
    Beads.countOccur "bd-2" "See bd-2 for details" = 1 ∧
    Beads.countOccur "bd-3" "Related to bd-3" = 1 ∧
    Beads.countOccur "bd-3" "Nothing to see here" = 0 := by decide
